import Mathlib

/-!
Shallow embedding of src/server.js: an Express + Mongoose attendance service.
The persistent MongoDB collections are modelled as Lean lists kept in a
ServerState record; each HTTP route handler becomes a pure function from the
request data and the current state to the next state and a response.
JavaScript Date values are modelled as Option Int (milliseconds since the
epoch; none models an Invalid Date, which is what new Date(s) yields on an
unparseable input). The server's local notion of time is modelled with a
zero offset, so setHours(0,0,0,0) is truncation to a multiple of 86400000 ms.
-/

namespace Server

/-- Milliseconds per day, the granularity of setHours(0,0,0,0) truncation. -/
def msPerDay : Int := 86400000

/-- Model of date.setHours(0, 0, 0, 0): truncate a timestamp to local
midnight (offset 0 model). Int.emod is nonnegative for a positive modulus,
matching the JavaScript floor-to-midnight behaviour also for times before
the epoch. -/
def startOfDay (t : Int) : Int := t - t % msPerDay

/-- Model of date.setHours(23, 59, 59, 999) applied after the midnight
truncation: the last millisecond of the same day. -/
def endOfDay (t : Int) : Int := startOfDay t + 86399999

/-- The date input of a request: absent, present and parseable (new Date(s)
yields a valid timestamp), or present but unparseable (new Date(s) yields
an Invalid Date). -/
inductive DateInput where
  | omitted
  | parseable (ms : Int)
  | unparseable
deriving DecidableEq

/-- Model of the source expression date ? new Date(date) : new Date().
An omitted date is the current time; an unparseable date is an Invalid
Date, modelled as none. -/
def parseDateInput (now : Int) : DateInput → Option Int
  | .omitted => some now
  | .parseable ms => some ms
  | .unparseable => none

/-- A User document: username and bcrypt password hash. -/
structure User where
  username : String
  passwordHash : String
deriving DecidableEq

/-- A Student document: roll number, display name, photo paths. -/
structure Student where
  rollNo : String
  name : String
  photos : List String
deriving DecidableEq

/-- A Lecture document. The source schema field named section is renamed
sectionName because section is a Lean keyword. -/
structure Lecture where
  name : String
  roomNo : String
  sectionName : String
deriving DecidableEq

/-- An Attendance document: lecture reference, record date (a valid
timestamp; records are only ever created with date = window start), and
the list of present-student references. -/
structure AttendanceRecord where
  lecture : String
  date : Int
  studentsPresent : List String
deriving DecidableEq

/-- The MongoDB collections of the service. findOne is modelled as
List.find?, returning the first match in insertion order. -/
structure ServerState where
  users : List User
  students : List Student
  lectures : List Lecture
  attendance : List AttendanceRecord
deriving DecidableEq

/-- An HTTP response: res.json on success, res.status(code).json({message})
or res.sendStatus(code) on failure (sendStatus is modelled with an empty
message). -/
inductive Response (α : Type) where
  | ok (body : α)
  | error (status : Nat) (message : String)
deriving DecidableEq

/-- Model of bcryptjs hashing: deterministic and injective in the model
(the salt is abstracted away); compare succeeds exactly on the password
that was hashed. -/
def bcryptHash (password : String) : String := "bcrypt$" ++ password

/-- Model of bcrypt.compare: true iff the hash is the stored hash of the
supplied password. -/
def bcryptCompare (password hash : String) : Bool := hash == bcryptHash password

/-- A deterministic string digest used by the model of JWT signing. -/
def strHash (s : String) : Nat := s.foldl (fun a c => a * 131 + c.toNat) 5381

/-- The hard-coded signing secret from the source. -/
def JWT_SECRET : String := "your_jwt_secret_here"

/-- The decoded payload of a session token: the username claim and the
expiry time (seconds since the epoch, as in the exp claim of a JWT). -/
structure TokenPayload where
  username : String
  exp : Int
deriving DecidableEq

/-- A bearer token as presented by a client: either not a well-formed JWT
at all, or a payload together with a signature value. -/
inductive Token where
  | malformed
  | signed (username : String) (exp : Int) (sig : Nat)
deriving DecidableEq

/-- Model of HMAC signing in the jsonwebtoken library: a deterministic
function of the secret and the payload. -/
def jwtSig (secret username : String) (exp : Int) : Nat :=
  strHash (secret ++ "." ++ username) * 1000003 + exp.natAbs

/-- The two error classes jwt.verify can produce: JsonWebTokenError for a
malformed token or a bad signature, TokenExpiredError for a token whose
signature checks out but whose exp claim is in the past. -/
inductive JwtError where
  | jsonWebTokenError
  | tokenExpiredError
deriving DecidableEq

/-- Model of jwt.verify(token, secret): reject a malformed token or a wrong
signature with JsonWebTokenError; reject a correctly signed token whose
expiry is not in the future with TokenExpiredError; otherwise return the
payload. -/
def jwtVerify (secret : String) (nowSec : Int) : Token → Except JwtError TokenPayload
  | .malformed => .error .jsonWebTokenError
  | .signed u e s =>
    if s ≠ jwtSig secret u e then .error .jsonWebTokenError
    else if e ≤ nowSec then .error .tokenExpiredError
    else .ok ⟨u, e⟩

/-- The authenticateToken middleware: a missing token gets 401 via
res.sendStatus(401); any jwt.verify error (malformed, invalid signature,
or expired) gets 403; otherwise the decoded payload becomes req.user.
The Option Token input models the extraction authHeader and
authHeader.split(' ')[1]: none covers an absent header and a header whose
second space-separated part is missing or empty (both falsy). -/
def authenticateToken (secret : String) (nowSec : Int) :
    Option Token → Except Nat TokenPayload
  | none => .error 401
  | some t =>
    match jwtVerify secret nowSec t with
    | .error _ => .error 403
    | .ok payload => .ok payload

/-- An access-gated route: the authenticateToken middleware runs first and
on failure responds immediately, so the wrapped handler (and hence any
store read or mutation it performs) never executes. -/
def gated {α : Type} (secret : String) (nowSec : Int) (auth : Option Token)
    (handler : TokenPayload → ServerState → ServerState × Response α)
    (st : ServerState) : ServerState × Response α :=
  match authenticateToken secret nowSec auth with
  | .error code => (st, .error code "")
  | .ok payload => handler payload st

/-- Replace the first element satisfying p with its image under f, leaving
everything else in place: the model of mutating a found Mongoose document
and calling save() on it. -/
def updateFirst {α : Type} (p : α → Bool) (f : α → α) : List α → List α
  | [] => []
  | x :: xs => if p x then f x :: xs else x :: updateFirst p f xs

/-- The POST /api/change-password handler body (after the auth gate):
look up the user named by the token payload; 404 if absent; 400 if the
current password does not verify; otherwise store the hash of the new
password and report success. -/
def changePasswordHandler (currentPassword newPassword : String)
    (payload : TokenPayload) (st : ServerState) : ServerState × Response String :=
  match st.users.find? (fun u => u.username == payload.username) with
  | none => (st, .error 404 "User not found")
  | some user =>
    if bcryptCompare currentPassword user.passwordHash then
      let saved := updateFirst (fun u => u.username == payload.username)
        (fun u => { u with passwordHash := bcryptHash newPassword }) st.users
      ({ st with users := saved }, .ok "Password changed successfully")
    else
      (st, .error 400 "Current password incorrect")

/-- The POST /api/students handler body (after the auth gate and multer):
files is the list of stored upload filenames multer produced for the
photos field. Empty rollNo or name is falsy in the source check; then the
two-photos check; then the duplicate roll number check; otherwise the new
student is saved and returned. -/
def registerStudentHandler (rollNo name : String) (files : List String)
    (st : ServerState) : ServerState × Response Student :=
  if rollNo = "" ∨ name = "" then
    (st, .error 400 "Roll No and Name are required")
  else if files.length ≠ 2 then
    (st, .error 400 "Two photos required")
  else
    let photos := files.map (fun f => "/uploads/students/" ++ f)
    match st.students.find? (fun s => s.rollNo == rollNo) with
    | some _ => (st, .error 400 "Student with this roll no already exists")
    | none =>
      let student : Student := ⟨rollNo, name, photos⟩
      ({ st with students := st.students ++ [student] }, .ok student)

/-- The literal five seed lectures from the source. -/
def seedLectures : List Lecture :=
  [⟨"Discrete Mathematics", "CS2005", "2FA"⟩,
   ⟨"Computer Organisation", "BSCS100", "2AA"⟩,
   ⟨"DBMS", "BCO1005", "2CA"⟩,
   ⟨"English", "BELH 0081", "2XX"⟩,
   ⟨"HTML", "PCPH0001", "2XN"⟩]

/-- The GET /api/lectures handler body (after the auth gate): read all
lectures; if none exist, insertMany the five seed lectures and return the
inserted documents; otherwise return what was found. -/
def getLecturesHandler (st : ServerState) : ServerState × Response (List Lecture) :=
  let lectures := st.lectures
  if lectures.length = 0 then
    ({ st with lectures := st.lectures ++ seedLectures }, .ok seedLectures)
  else
    (st, .ok lectures)

/-- The filter of the Attendance.findOne call shared by the query and mark
routes: same lecture and a date inside the inclusive day window. -/
def attendanceMatch (lectureId : String) (s e : Int) (r : AttendanceRecord) : Bool :=
  r.lecture == lectureId && decide (s ≤ r.date) && decide (r.date ≤ e)

/-- The GET /api/attendance/:lectureId handler body on the attendance
collection. An unparseable date stays an Invalid Date through setHours,
and Mongoose fails to cast it in the findOne filter, so the lookup rejects
(modelled as a 500-class error) instead of answering. Otherwise findOne
over the day window, with the synthetic empty record fallback. No save is
ever issued, so the collection is returned unchanged. -/
def queryAttendance (now : Int) (att : List AttendanceRecord)
    (lectureId : String) (dateQuery : DateInput) :
    List AttendanceRecord × Response AttendanceRecord :=
  match parseDateInput now dateQuery with
  | none => (att, .error 500 "CastError: invalid date")
  | some d =>
    let start := startOfDay d
    match att.find? (attendanceMatch lectureId start (endOfDay d)) with
    | some attendance => (att, .ok attendance)
    | none => (att, .ok ⟨lectureId, start, []⟩)

/-- The GET /api/attendance/:lectureId route handler lifted to the full
server state. -/
def getAttendanceHandler (now : Int) (lectureId : String) (dateQuery : DateInput)
    (st : ServerState) : ServerState × Response AttendanceRecord :=
  let result := queryAttendance now st.attendance lectureId dateQuery
  ({ st with attendance := result.1 }, result.2)

/-- The POST /api/attendance/mark handler body on the attendance
collection: falsy lectureId or studentId gets 400; an unparseable date
fails the Mongoose cast in findOne (500-class, nothing mutated). Otherwise
findOne over the day window; a missing record becomes a fresh document
anchored at the window start with an empty present list; if the student is
already present respond 400 Conflict without saving, else push the student
and save (insert for a fresh document, in-place update for a found one). -/
def markAttendance (now : Int) (att : List AttendanceRecord)
    (lectureId studentId : String) (dateBody : DateInput) :
    List AttendanceRecord × Response AttendanceRecord :=
  if lectureId = "" ∨ studentId = "" then
    (att, .error 400 "lectureId and studentId required")
  else
    match parseDateInput now dateBody with
    | none => (att, .error 500 "CastError: invalid date")
    | some d =>
      let start := startOfDay d
      let found := att.find? (attendanceMatch lectureId start (endOfDay d))
      let attendance := found.getD ⟨lectureId, start, []⟩
      if studentId ∈ attendance.studentsPresent then
        (att, .error 400 "Student already marked present")
      else
        let updated : AttendanceRecord :=
          { attendance with studentsPresent := attendance.studentsPresent ++ [studentId] }
        match found with
        | none => (att ++ [updated], .ok updated)
        | some _ =>
          let saved := updateFirst (attendanceMatch lectureId start (endOfDay d))
            (fun _ => updated) att
          (saved, .ok updated)

/-- The POST /api/attendance/mark route handler lifted to the full server
state. -/
def markAttendanceHandler (now : Int) (lectureId studentId : String)
    (dateBody : DateInput) (st : ServerState) : ServerState × Response AttendanceRecord :=
  let result := markAttendance now st.attendance lectureId studentId dateBody
  ({ st with attendance := result.1 }, result.2)

/-- An operation on the attendance ledger, for reachability statements. -/
inductive LedgerOp where
  | mark (lectureId studentId : String) (dateBody : DateInput)
  | query (lectureId : String) (dateQuery : DateInput)
deriving DecidableEq

/-- One ledger operation applied to the attendance collection. -/
def ledgerStep (now : Int) (att : List AttendanceRecord) : LedgerOp → List AttendanceRecord
  | .mark l s d => (markAttendance now att l s d).1
  | .query l d => (queryAttendance now att l d).1

/-- The attendance collection after a sequence of ledger operations
starting from the empty store. -/
def runLedger (now : Int) (ops : List LedgerOp) : List AttendanceRecord :=
  ops.foldl (ledgerStep now) []

/-- The (lecture, calendar day) key of an attendance record. -/
def recordKey (r : AttendanceRecord) : String × Int := (r.lecture, startOfDay r.date)

/-- The ledger invariant: every record date is anchored at a day start, and
the (lecture, day) keys are pairwise distinct, so there is at most one
record per (lecture, calendar day) pair. -/
def LedgerInv (att : List AttendanceRecord) : Prop :=
  (∀ r ∈ att, r.date = startOfDay r.date) ∧ (att.map recordKey).Nodup

/-- An empty server state, used by concrete witnesses. -/
def emptyState : ServerState := ⟨[], [], [], []⟩

/-! ### Day-window arithmetic -/

theorem startOfDay_idem (t : Int) : startOfDay (startOfDay t) = startOfDay t := by
  unfold startOfDay msPerDay
  omega

theorem startOfDay_le_endOfDay (t : Int) : startOfDay t ≤ endOfDay t := by
  unfold endOfDay
  omega

/-- A day-anchored timestamp lies in the day window of d exactly when it
equals the window start of d. -/
theorem anchored_mem_window (x d : Int) (hx : x = startOfDay x) :
    (startOfDay d ≤ x ∧ x ≤ endOfDay d) ↔ x = startOfDay d := by
  unfold endOfDay at *
  unfold startOfDay msPerDay at *
  omega

/-- A record whose lecture is the queried one and whose date is the window
start satisfies the findOne filter of its own window. -/
theorem attendanceMatch_self (lectureId : String) (d : Int) (sp : List String) :
    attendanceMatch lectureId (startOfDay d) (endOfDay d)
      ⟨lectureId, startOfDay d, sp⟩ = true := by
  simp only [attendanceMatch, endOfDay]
  simp

/-- The findOne filter ignores the studentsPresent field. -/
theorem attendanceMatch_ignores_students (lectureId : String) (s e : Int)
    (r : AttendanceRecord) (sp : List String) :
    attendanceMatch lectureId s e { r with studentsPresent := sp }
      = attendanceMatch lectureId s e r := by
  simp [attendanceMatch]

/-! ### Lemmas about updateFirst, the model of mutate-and-save -/

theorem updateFirst_append_cons {α : Type} (p : α → Bool) (f : α → α)
    (l₁ l₂ : List α) (a : α) (h₁ : ∀ x ∈ l₁, p x = false) (ha : p a = true) :
    updateFirst p f (l₁ ++ a :: l₂) = l₁ ++ f a :: l₂ := by
  induction l₁ with
  | nil => simp [updateFirst, ha]
  | cons x xs ih =>
    have hx : p x = false := h₁ x (List.mem_cons_self x xs)
    simp [updateFirst, hx, ih (fun y hy => h₁ y (List.mem_cons_of_mem x hy))]

theorem updateFirst_of_forall_false {α : Type} (p : α → Bool) (f : α → α)
    (l : List α) (h : ∀ x ∈ l, p x = false) : updateFirst p f l = l := by
  induction l with
  | nil => rfl
  | cons x xs ih =>
    have hx : p x = false := h x (List.mem_cons_self x xs)
    simp [updateFirst, hx, ih (fun y hy => h y (List.mem_cons_of_mem x hy))]

theorem updateFirst_length {α : Type} (p : α → Bool) (f : α → α) (l : List α) :
    (updateFirst p f l).length = l.length := by
  induction l with
  | nil => rfl
  | cons x xs ih =>
    cases hpx : p x with
    | false => simp [updateFirst, hpx, ih]
    | true => simp [updateFirst, hpx]

theorem find?_after_updateFirst {α : Type} (p : α → Bool) (f : α → α)
    (l : List α) (a : α) (h : l.find? p = some a) (hfa : p (f a) = true) :
    (updateFirst p f l).find? p = some (f a) := by
  rcases List.find?_eq_some.mp h with ⟨hpa, l₁, l₂, rfl, hl₁⟩
  have hfalse : ∀ x ∈ l₁, p x = false := by
    intro x hx
    have h' := hl₁ x hx
    cases hpx : p x
    · rfl
    · rw [hpx] at h'
      simp at h'
  rw [updateFirst_append_cons p f l₁ l₂ a hfalse hpa]
  rw [List.find?_append]
  have h₁ : l₁.find? p = none :=
    List.find?_eq_none.mpr (fun x hx => by simp [hfalse x hx])
  rw [h₁, List.find?_cons_of_pos _ hfa]
  rfl

theorem map_after_updateFirst {α β : Type} (p : α → Bool) (f : α → α) (g : α → β)
    (l : List α) (a : α) (h : l.find? p = some a) (hg : g (f a) = g a) :
    (updateFirst p f l).map g = l.map g := by
  rcases List.find?_eq_some.mp h with ⟨hpa, l₁, l₂, rfl, hl₁⟩
  have hfalse : ∀ x ∈ l₁, p x = false := by
    intro x hx
    have h' := hl₁ x hx
    cases hpx : p x
    · rfl
    · rw [hpx] at h'
      simp at h'
  rw [updateFirst_append_cons p f l₁ l₂ a hfalse hpa]
  simp [hg]

theorem mem_after_updateFirst {α : Type} (p : α → Bool) (f : α → α)
    (l : List α) (y : α) (h : y ∈ updateFirst p f l) :
    y ∈ l ∨ ∃ a ∈ l, p a = true ∧ y = f a := by
  induction l with
  | nil => simp [updateFirst] at h
  | cons x xs ih =>
    cases hpx : p x with
    | false =>
      simp only [updateFirst, hpx] at h
      simp only [Bool.false_eq_true, if_false, List.mem_cons] at h
      rcases h with h | h
      · exact Or.inl (by simp [h])
      · rcases ih h with h' | ⟨a, ha, hpa, hy⟩
        · exact Or.inl (List.mem_cons_of_mem x h')
        · exact Or.inr ⟨a, List.mem_cons_of_mem x ha, hpa, hy⟩
    | true =>
      simp only [updateFirst, hpx, if_true, List.mem_cons] at h
      rcases h with h | h
      · exact Or.inr ⟨x, List.mem_cons_self x xs, hpx, h⟩
      · exact Or.inl (List.mem_cons_of_mem x h)

/-! ### Branch equations for the attendance routes -/

theorem queryAttendance_fst (now : Int) (att : List AttendanceRecord)
    (lectureId : String) (dateQuery : DateInput) :
    (queryAttendance now att lectureId dateQuery).1 = att := by
  simp only [queryAttendance]
  cases hp : parseDateInput now dateQuery with
  | none => rfl
  | some d =>
    cases hf : att.find? (attendanceMatch lectureId (startOfDay d) (endOfDay d)) with
    | none => simp [hf]
    | some r => simp [hf]

theorem queryAttendance_found (now : Int) (att : List AttendanceRecord)
    (lectureId : String) (dateQuery : DateInput) (d : Int) (a : AttendanceRecord)
    (hd : parseDateInput now dateQuery = some d)
    (hf : att.find? (attendanceMatch lectureId (startOfDay d) (endOfDay d)) = some a) :
    queryAttendance now att lectureId dateQuery = (att, Response.ok a) := by
  simp [queryAttendance, hd, hf]

theorem markAttendance_invalid (now : Int) (att : List AttendanceRecord)
    (l s : String) (d : DateInput) (h : l = "" ∨ s = "") :
    markAttendance now att l s d
      = (att, Response.error 400 "lectureId and studentId required") := by
  simp [markAttendance, h]

theorem markAttendance_castError (now : Int) (att : List AttendanceRecord)
    (l s : String) (d : DateInput) (hls : ¬(l = "" ∨ s = ""))
    (hd : parseDateInput now d = none) :
    markAttendance now att l s d
      = (att, Response.error 500 "CastError: invalid date") := by
  simp [markAttendance, hls, hd]

theorem markAttendance_new (now : Int) (att : List AttendanceRecord)
    (l s : String) (d : DateInput) (dd : Int) (hls : ¬(l = "" ∨ s = ""))
    (hd : parseDateInput now d = some dd)
    (hf : att.find? (attendanceMatch l (startOfDay dd) (endOfDay dd)) = none) :
    markAttendance now att l s d
      = (att ++ [⟨l, startOfDay dd, [s]⟩], Response.ok ⟨l, startOfDay dd, [s]⟩) := by
  simp [markAttendance, hls, hd, hf]

theorem markAttendance_conflict (now : Int) (att : List AttendanceRecord)
    (l s : String) (d : DateInput) (dd : Int) (a : AttendanceRecord)
    (hls : ¬(l = "" ∨ s = "")) (hd : parseDateInput now d = some dd)
    (hf : att.find? (attendanceMatch l (startOfDay dd) (endOfDay dd)) = some a)
    (hmem : s ∈ a.studentsPresent) :
    markAttendance now att l s d
      = (att, Response.error 400 "Student already marked present") := by
  simp [markAttendance, hls, hd, hf, hmem]

theorem markAttendance_push (now : Int) (att : List AttendanceRecord)
    (l s : String) (d : DateInput) (dd : Int) (a : AttendanceRecord)
    (hls : ¬(l = "" ∨ s = "")) (hd : parseDateInput now d = some dd)
    (hf : att.find? (attendanceMatch l (startOfDay dd) (endOfDay dd)) = some a)
    (hmem : s ∉ a.studentsPresent) :
    markAttendance now att l s d
      = (updateFirst (attendanceMatch l (startOfDay dd) (endOfDay dd))
          (fun _ => { a with studentsPresent := a.studentsPresent ++ [s] }) att,
         Response.ok { a with studentsPresent := a.studentsPresent ++ [s] }) := by
  simp [markAttendance, hls, hd, hf, hmem]

/-! ### Claims about the attendance query route -/

/-- C3: for every lecture and every day with no stored attendance record,
the query answers with the synthetic empty record whose lecture is the
requested one and whose date is the window start (local midnight), and a
query whose date input parses (including an omitted date) always answers
ok with some record, never with a not-found error. -/
theorem query_missing_returns_synthetic (now D : Int)
    (att : List AttendanceRecord) (lectureId : String)
    (h : att.find? (attendanceMatch lectureId (startOfDay D) (endOfDay D)) = none) :
    queryAttendance now att lectureId (DateInput.parseable D)
      = (att, Response.ok ⟨lectureId, startOfDay D, []⟩) ∧
    (∀ dateQuery d, parseDateInput now dateQuery = some d →
      ∃ rec, (queryAttendance now att lectureId dateQuery).2 = Response.ok rec) := by
  constructor
  · simp [queryAttendance, parseDateInput, h]
  · intro dateQuery d hd
    simp only [queryAttendance, hd]
    cases hf : att.find? (attendanceMatch lectureId (startOfDay d) (endOfDay d)) with
    | none => exact ⟨_, rfl⟩
    | some rec => exact ⟨rec, rfl⟩

/-- Witness for C3 at a concrete input: empty store, lecture L1, day 0. -/
theorem query_missing_returns_synthetic_witness :
    queryAttendance 0 [] "L1" (DateInput.parseable 0)
      = ([], Response.ok ⟨"L1", startOfDay 0, []⟩) ∧
    ∃ rec, (queryAttendance 0 [] "L1" DateInput.omitted).2 = Response.ok rec :=
  ⟨(query_missing_returns_synthetic 0 0 [] "L1" rfl).1,
   (query_missing_returns_synthetic 0 0 [] "L1" rfl).2 DateInput.omitted 0 rfl⟩

/-- C9: the query route never mutates the attendance store: the collection
after the lookup equals the collection before it, for every date input and
also at the level of the whole server state, and in particular the
synthetic empty record is not persisted. -/
theorem query_preserves_store (now : Int) (att : List AttendanceRecord)
    (lectureId : String) (dateQuery : DateInput) (st : ServerState) :
    (queryAttendance now att lectureId dateQuery).1 = att ∧
    (getAttendanceHandler now lectureId dateQuery st).1 = st := by
  refine ⟨queryAttendance_fst now att lectureId dateQuery, ?_⟩
  simp only [getAttendanceHandler]
  rw [queryAttendance_fst]

/-! ### Claim about lazy lecture seeding -/

/-- C5: reading lectures from an empty store seeds and returns exactly the
five literal lectures; a store observed nonempty is returned as-is without
seeding; hence a second read after seeding returns the same five lectures
without duplication. -/
theorem lectures_lazy_seed :
    seedLectures = [⟨"Discrete Mathematics", "CS2005", "2FA"⟩,
      ⟨"Computer Organisation", "BSCS100", "2AA"⟩,
      ⟨"DBMS", "BCO1005", "2CA"⟩,
      ⟨"English", "BELH 0081", "2XX"⟩,
      ⟨"HTML", "PCPH0001", "2XN"⟩] ∧
    seedLectures.length = 5 ∧
    (∀ st : ServerState, st.lectures = [] →
      getLecturesHandler st
        = ({ st with lectures := seedLectures }, Response.ok seedLectures)) ∧
    (∀ st : ServerState, st.lectures ≠ [] →
      getLecturesHandler st = (st, Response.ok st.lectures)) ∧
    (∀ st : ServerState, st.lectures = [] →
      getLecturesHandler (getLecturesHandler st).1
        = ((getLecturesHandler st).1, Response.ok seedLectures)) := by
  have hseed : ∀ st : ServerState, st.lectures = [] →
      getLecturesHandler st
        = ({ st with lectures := seedLectures }, Response.ok seedLectures) := by
    intro st hst
    simp [getLecturesHandler, hst]
  have hkeep : ∀ st : ServerState, st.lectures ≠ [] →
      getLecturesHandler st = (st, Response.ok st.lectures) := by
    intro st hst
    have : st.lectures.length ≠ 0 := by
      simpa [List.length_eq_zero] using hst
    simp [getLecturesHandler, this]
  refine ⟨rfl, rfl, hseed, hkeep, ?_⟩
  intro st hst
  rw [hseed st hst]
  have hne : ({ st with lectures := seedLectures } : ServerState).lectures ≠ [] := by
    simp [seedLectures]
  simpa using hkeep _ hne

/-- Witness for C5 at a concrete input: the empty state. -/
theorem lectures_lazy_seed_witness :
    getLecturesHandler emptyState
      = ({ emptyState with lectures := seedLectures }, Response.ok seedLectures) ∧
    getLecturesHandler { emptyState with lectures := seedLectures }
      = ({ emptyState with lectures := seedLectures }, Response.ok seedLectures) := by
  refine ⟨lectures_lazy_seed.2.2.1 emptyState rfl, ?_⟩
  simpa using lectures_lazy_seed.2.2.2.2 emptyState rfl

/-! ### Claim about unparseable dates -/

/-- C4 counterexample: a query with an unparseable date does not behave as
a query with the date omitted; at time 0 on the empty store the former
fails the Mongoose date cast while the latter answers the synthetic
record of the current day. -/
theorem unparseable_date_cex :
    queryAttendance 0 [] "L1" DateInput.unparseable
      ≠ queryAttendance 0 [] "L1" DateInput.omitted := by
  decide

/-- C4 (amended): an unparseable date input is not treated as the current
time. It parses to an Invalid Date, the day window computed from it is
invalid, and the operation fails the date cast without mutating anything;
the query outcome always differs from the omitted-date outcome. -/
theorem unparseable_date_invalid_window (now : Int) (att : List AttendanceRecord)
    (lectureId studentId : String) :
    parseDateInput now DateInput.unparseable = none ∧
    queryAttendance now att lectureId DateInput.unparseable
      = (att, Response.error 500 "CastError: invalid date") ∧
    queryAttendance now att lectureId DateInput.unparseable
      ≠ queryAttendance now att lectureId DateInput.omitted ∧
    (lectureId ≠ "" → studentId ≠ "" →
      markAttendance now att lectureId studentId DateInput.unparseable
        = (att, Response.error 500 "CastError: invalid date")) := by
  refine ⟨rfl, rfl, ?_, ?_⟩
  · intro heq
    have h2 := congrArg Prod.snd heq
    simp only [queryAttendance, parseDateInput] at h2
    cases hf : att.find? (attendanceMatch lectureId (startOfDay now) (endOfDay now)) with
    | none => rw [hf] at h2; simp at h2
    | some r => rw [hf] at h2; simp at h2
  · intro hL hS
    simp [markAttendance, parseDateInput, hL, hS]

/-- Witness for the amended C4 at a concrete input. -/
theorem unparseable_date_invalid_window_witness :
    parseDateInput 5 DateInput.unparseable = none ∧
    markAttendance 5 [] "L1" "S1" DateInput.unparseable
      = ([], Response.error 500 "CastError: invalid date") :=
  ⟨(unparseable_date_invalid_window 5 [] "L1" "S1").1,
   (unparseable_date_invalid_window 5 [] "L1" "S1").2.2.2 (by decide) (by decide)⟩

/-! ### Claims about the access gate -/

/-- C6 counterexample: a malformed bearer token is rejected with 403
(Forbidden in the spec taxonomy), not 401 (Unauthenticated) as the claim
states: the middleware maps every jwt.verify error, including a malformed
token, to res.sendStatus(403). -/
theorem auth_malformed_cex :
    authenticateToken JWT_SECRET 0 (some Token.malformed) = Except.error 403 ∧
    (Except.error 403 : Except Nat TokenPayload) ≠ Except.error 401 := by
  refine ⟨rfl, ?_⟩
  intro h
  injection h with h'
  exact absurd h' (by decide)

/-- C6 (amended): the gate totally mediates every gated operation: an
absent token is rejected 401 (Unauthenticated); a malformed token, a token
with an invalid signature, and a validly signed but expired token are all
rejected 403 (Forbidden); in every failure case the wrapped handler never
runs, so the store comes back unchanged whatever the handler would have
read or written. -/
theorem auth_gate_mediates {α : Type} (secret : String) (nowSec : Int)
    (handler : TokenPayload → ServerState → ServerState × Response α)
    (st : ServerState) (u : String) (e : Int) (sig : Nat) :
    gated secret nowSec none handler st = (st, Response.error 401 "") ∧
    gated secret nowSec (some Token.malformed) handler st
      = (st, Response.error 403 "") ∧
    (sig ≠ jwtSig secret u e →
      gated secret nowSec (some (Token.signed u e sig)) handler st
        = (st, Response.error 403 "")) ∧
    (e ≤ nowSec →
      gated secret nowSec (some (Token.signed u e (jwtSig secret u e))) handler st
        = (st, Response.error 403 "")) := by
  refine ⟨rfl, rfl, ?_, ?_⟩
  · intro hsig
    simp [gated, authenticateToken, jwtVerify, hsig]
  · intro hexp
    simp [gated, authenticateToken, jwtVerify, hexp]

/-- Witness for the amended C6 at concrete inputs: a wrong signature and an
expired token, against a handler that would overwrite the attendance
store if it ever ran. -/
theorem auth_gate_mediates_witness :
    gated "s" 10 (some (Token.signed "Akash" 3 (jwtSig "s" "Akash" 3 + 1)))
      (fun _ st => (⟨st.users, st.students, st.lectures, [⟨"L", 0, ["S"]⟩]⟩,
        Response.ok "ran"))
      emptyState = (emptyState, Response.error 403 "") ∧
    gated "s" 10 (some (Token.signed "Akash" 3 (jwtSig "s" "Akash" 3)))
      (fun _ st => (⟨st.users, st.students, st.lectures, [⟨"L", 0, ["S"]⟩]⟩,
        Response.ok "ran"))
      emptyState = (emptyState, Response.error 403 "") :=
  ⟨(auth_gate_mediates "s" 10 _ emptyState "Akash" 3
      (jwtSig "s" "Akash" 3 + 1)).2.2.1 (by omega),
   (auth_gate_mediates "s" 10 _ emptyState "Akash" 3
      (jwtSig "s" "Akash" 3)).2.2.2 (by decide)⟩

/-! ### Claim about student registration -/

/-- C7: registering a student fails with InvalidInput (400) on an empty
roll number, an empty name, or a photo count other than two, leaving the
store unchanged; fails with Conflict (400) leaving the store unchanged
(and so still with exactly one holder of the roll number) when the roll
number already exists; otherwise appends and returns the new student with
the given roll number and name and exactly two photo references. -/
theorem register_student_cases (rollNo name : String) (files : List String)
    (st : ServerState) :
    ((rollNo = "" ∨ name = "" ∨ files.length ≠ 2) →
      (registerStudentHandler rollNo name files st).1 = st ∧
      ∃ msg, (registerStudentHandler rollNo name files st).2
        = Response.error 400 msg) ∧
    (rollNo ≠ "" → name ≠ "" → files.length = 2 →
      ∀ s₀, st.students.find? (fun s => s.rollNo == rollNo) = some s₀ →
      registerStudentHandler rollNo name files st
        = (st, Response.error 400 "Student with this roll no already exists") ∧
      (st.students.countP (fun s => s.rollNo == rollNo) = 1 →
        (registerStudentHandler rollNo name files st).1.students.countP
          (fun s => s.rollNo == rollNo) = 1)) ∧
    (rollNo ≠ "" → name ≠ "" → files.length = 2 →
      st.students.find? (fun s => s.rollNo == rollNo) = none →
      registerStudentHandler rollNo name files st
        = ({ st with students := st.students
              ++ [⟨rollNo, name, files.map (fun f => "/uploads/students/" ++ f)⟩] },
           Response.ok ⟨rollNo, name, files.map (fun f => "/uploads/students/" ++ f)⟩) ∧
      (files.map (fun f => "/uploads/students/" ++ f)).length = 2) := by
  refine ⟨?_, ?_, ?_⟩
  · intro h
    by_cases h1 : rollNo = "" ∨ name = ""
    · exact ⟨by simp [registerStudentHandler, h1],
        ⟨"Roll No and Name are required", by simp [registerStudentHandler, h1]⟩⟩
    · have h2 : files.length ≠ 2 := by tauto
      exact ⟨by simp [registerStudentHandler, h1, h2],
        ⟨"Two photos required", by simp [registerStudentHandler, h1, h2]⟩⟩
  · intro hr hn hf s₀ hfind
    have hcond : ¬(rollNo = "" ∨ name = "") := by simp [hr, hn]
    constructor
    · simp [registerStudentHandler, hcond, hf, hfind]
    · intro hcount
      simp [registerStudentHandler, hcond, hf, hfind, hcount]
  · intro hr hn hf hfind
    have hcond : ¬(rollNo = "" ∨ name = "") := by simp [hr, hn]
    constructor
    · simp [registerStudentHandler, hcond, hf, hfind]
    · simp [hf]

/-- The roster state after the first successful registration, used by the
C7 witness. -/
def r1State : ServerState :=
  { emptyState with students :=
      [⟨"R1", "Bob", ["/uploads/students/p1", "/uploads/students/p2"]⟩] }

/-- Witness for C7 at concrete inputs: one photo (invalid input), a fresh
registration, and a duplicate roll number. -/
theorem register_student_cases_witness :
    ((registerStudentHandler "R1" "Bob" ["p1"] emptyState).1 = emptyState ∧
      ∃ msg, (registerStudentHandler "R1" "Bob" ["p1"] emptyState).2
        = Response.error 400 msg) ∧
    registerStudentHandler "R1" "Bob" ["p1", "p2"] emptyState
      = ({ emptyState with students := emptyState.students
            ++ [⟨"R1", "Bob", ["p1", "p2"].map (fun f => "/uploads/students/" ++ f)⟩] },
         Response.ok ⟨"R1", "Bob", ["p1", "p2"].map (fun f => "/uploads/students/" ++ f)⟩) ∧
    registerStudentHandler "R1" "Alice" ["q1", "q2"] r1State
      = (r1State, Response.error 400 "Student with this roll no already exists") ∧
    (registerStudentHandler "R1" "Alice" ["q1", "q2"] r1State).1.students.countP
      (fun s => s.rollNo == "R1") = 1 := by
  have hconf := (register_student_cases "R1" "Alice" ["q1", "q2"] r1State).2.1
    (by decide) (by decide) (by decide)
    ⟨"R1", "Bob", ["/uploads/students/p1", "/uploads/students/p2"]⟩ (by decide)
  exact ⟨(register_student_cases "R1" "Bob" ["p1"] emptyState).1 (by decide),
    ((register_student_cases "R1" "Bob" ["p1", "p2"] emptyState).2.2
      (by decide) (by decide) (by decide) rfl).1,
    hconf.1, hconf.2 (by decide)⟩

/-! ### Claim about password change -/

/-- C8: changing the password fails 404 (NotFound) when the identity named
by the token is absent; fails 400 (InvalidCredential) leaving the store,
and hence the stored hash, unchanged when the current password does not
verify against the stored hash; otherwise succeeds and the stored hash of
that identity becomes a newly computed hash of the new password. -/
theorem change_password_cases (currentPassword newPassword : String)
    (payload : TokenPayload) (st : ServerState) :
    (st.users.find? (fun u => u.username == payload.username) = none →
      changePasswordHandler currentPassword newPassword payload st
        = (st, Response.error 404 "User not found")) ∧
    (∀ user, st.users.find? (fun u => u.username == payload.username) = some user →
      bcryptCompare currentPassword user.passwordHash = false →
      changePasswordHandler currentPassword newPassword payload st
        = (st, Response.error 400 "Current password incorrect")) ∧
    (∀ user, st.users.find? (fun u => u.username == payload.username) = some user →
      bcryptCompare currentPassword user.passwordHash = true →
      (changePasswordHandler currentPassword newPassword payload st).2
        = Response.ok "Password changed successfully" ∧
      (changePasswordHandler currentPassword newPassword payload st).1.users.find?
          (fun u => u.username == payload.username)
        = some { user with passwordHash := bcryptHash newPassword }) := by
  refine ⟨?_, ?_, ?_⟩
  · intro h
    simp [changePasswordHandler, h]
  · intro user hfind hcmp
    simp [changePasswordHandler, hfind, hcmp]
  · intro user hfind hcmp
    have hpu : (fun u => u.username == payload.username) user = true :=
      (List.find?_eq_some.mp hfind).1
    have hupd := find?_after_updateFirst
      (fun u => u.username == payload.username)
      (fun u => { u with passwordHash := bcryptHash newPassword })
      st.users user hfind hpu
    constructor
    · simp [changePasswordHandler, hfind, hcmp]
    · simp only [changePasswordHandler, hfind]
      simp [hcmp, hupd]

/-! ### Claims about marking attendance -/

/-- C1: marking the same student for the same lecture and day twice in
sequence, starting from a store where that student is not yet present for
the key: the first call succeeds and answers the updated record (with one
membership of the student); the second call fails with Conflict (400)
leaving the ledger unchanged; a query for that lecture and day afterwards
shows exactly one membership of the student in the present set. -/
theorem mark_twice_and_query (now D : Int) (att : List AttendanceRecord)
    (L S : String) (hL : L ≠ "") (hS : S ≠ "")
    (h : ∀ r, att.find? (attendanceMatch L (startOfDay D) (endOfDay D)) = some r →
      S ∉ r.studentsPresent) :
    (∃ rec, (markAttendance now att L S (DateInput.parseable D)).2 = Response.ok rec ∧
      rec.studentsPresent.count S = 1) ∧
    markAttendance now (markAttendance now att L S (DateInput.parseable D)).1 L S
        (DateInput.parseable D)
      = ((markAttendance now att L S (DateInput.parseable D)).1,
         Response.error 400 "Student already marked present") ∧
    (∃ q, (queryAttendance now (markAttendance now att L S (DateInput.parseable D)).1 L
        (DateInput.parseable D)).2 = Response.ok q ∧
      q.studentsPresent.count S = 1) := by
  have hls : ¬(L = "" ∨ S = "") := by simp [hL, hS]
  have hd : parseDateInput now (DateInput.parseable D) = some D := rfl
  cases hf : att.find? (attendanceMatch L (startOfDay D) (endOfDay D)) with
  | none =>
    have hM := markAttendance_new now att L S (DateInput.parseable D) D hls hd hf
    have hf2 : (att ++ [(⟨L, startOfDay D, [S]⟩ : AttendanceRecord)]).find?
        (attendanceMatch L (startOfDay D) (endOfDay D))
        = some ⟨L, startOfDay D, [S]⟩ := by
      rw [List.find?_append, hf]
      simp [attendanceMatch_self L D [S]]
    refine ⟨⟨⟨L, startOfDay D, [S]⟩, by rw [hM], by simp⟩, ?_, ?_⟩
    · rw [hM]
      exact markAttendance_conflict now _ L S (DateInput.parseable D) D
        ⟨L, startOfDay D, [S]⟩ hls hd hf2 (by simp)
    · refine ⟨⟨L, startOfDay D, [S]⟩, ?_, by simp⟩
      rw [hM]
      rw [queryAttendance_found now _ L (DateInput.parseable D) D
        ⟨L, startOfDay D, [S]⟩ hd hf2]
  | some a =>
    have hmem : S ∉ a.studentsPresent := h a hf
    have hpa : attendanceMatch L (startOfDay D) (endOfDay D) a = true :=
      (List.find?_eq_some.mp hf).1
    have hM := markAttendance_push now att L S (DateInput.parseable D) D a hls hd hf hmem
    have hpu : attendanceMatch L (startOfDay D) (endOfDay D)
        { a with studentsPresent := a.studentsPresent ++ [S] } = true := by
      rw [attendanceMatch_ignores_students]
      exact hpa
    have hf2 : ((markAttendance now att L S (DateInput.parseable D)).1).find?
        (attendanceMatch L (startOfDay D) (endOfDay D))
        = some { a with studentsPresent := a.studentsPresent ++ [S] } := by
      rw [hM]
      exact find?_after_updateFirst _ _ att a hf hpu
    have hcount : ({ a with studentsPresent := a.studentsPresent ++ [S]}
        : AttendanceRecord).studentsPresent.count S = 1 := by
      simp [List.count_append, List.count_eq_zero_of_not_mem hmem]
    refine ⟨⟨{ a with studentsPresent := a.studentsPresent ++ [S] },
        by rw [hM], hcount⟩, ?_, ?_⟩
    · exact markAttendance_conflict now _ L S (DateInput.parseable D) D
        { a with studentsPresent := a.studentsPresent ++ [S] } hls hd hf2 (by simp)
    · refine ⟨{ a with studentsPresent := a.studentsPresent ++ [S] }, ?_, hcount⟩
      rw [queryAttendance_found now _ L (DateInput.parseable D) D
        { a with studentsPresent := a.studentsPresent ++ [S] } hd hf2]

/-- Witness for C1 at a concrete input: empty store, lecture L1, student
S1, day 0. -/
theorem mark_twice_and_query_witness :
    (∃ rec, (markAttendance 0 [] "L1" "S1" (DateInput.parseable 0)).2
        = Response.ok rec ∧ rec.studentsPresent.count "S1" = 1) ∧
    markAttendance 0 (markAttendance 0 [] "L1" "S1" (DateInput.parseable 0)).1 "L1" "S1"
        (DateInput.parseable 0)
      = ((markAttendance 0 [] "L1" "S1" (DateInput.parseable 0)).1,
         Response.error 400 "Student already marked present") ∧
    (∃ q, (queryAttendance 0 (markAttendance 0 [] "L1" "S1" (DateInput.parseable 0)).1
        "L1" (DateInput.parseable 0)).2 = Response.ok q ∧
      q.studentsPresent.count "S1" = 1) :=
  mark_twice_and_query 0 0 [] "L1" "S1" (by decide) (by decide)
    (fun r hr => nomatch hr)

/-- C10: when a mark lands on an already-existing record, only that record
changes and only in its studentsPresent field: the store splits as a
prefix of non-matching records, the matched record, and a suffix; the mark
keeps the prefix and suffix unchanged and replaces the matched record by
one with the same lecture and the same date (the anchor set at creation)
and the student appended; the store length is unchanged. -/
theorem mark_existing_frame (now D : Int) (att : List AttendanceRecord)
    (L S : String) (a : AttendanceRecord) (hL : L ≠ "") (hS : S ≠ "")
    (hf : att.find? (attendanceMatch L (startOfDay D) (endOfDay D)) = some a)
    (hmem : S ∉ a.studentsPresent) :
    ∃ before after,
      att = before ++ a :: after ∧
      (∀ x ∈ before, attendanceMatch L (startOfDay D) (endOfDay D) x = false) ∧
      (markAttendance now att L S (DateInput.parseable D)).1
        = before ++ { a with studentsPresent := a.studentsPresent ++ [S] } :: after ∧
      ({ a with studentsPresent := a.studentsPresent ++ [S] }
        : AttendanceRecord).lecture = a.lecture ∧
      ({ a with studentsPresent := a.studentsPresent ++ [S] }
        : AttendanceRecord).date = a.date ∧
      (markAttendance now att L S (DateInput.parseable D)).1.length = att.length := by
  have hls : ¬(L = "" ∨ S = "") := by simp [hL, hS]
  have hd : parseDateInput now (DateInput.parseable D) = some D := rfl
  have hM := markAttendance_push now att L S (DateInput.parseable D) D a hls hd hf hmem
  rcases List.find?_eq_some.mp hf with ⟨hpa, l₁, l₂, hatt, hl₁⟩
  have hfalse : ∀ x ∈ l₁, attendanceMatch L (startOfDay D) (endOfDay D) x = false := by
    intro x hx
    have h' := hl₁ x hx
    cases hpx : attendanceMatch L (startOfDay D) (endOfDay D) x
    · rfl
    · rw [hpx] at h'
      simp at h'
  refine ⟨l₁, l₂, hatt, hfalse, ?_, rfl, rfl, ?_⟩
  · rw [hM]
    simp only []
    rw [hatt, updateFirst_append_cons _ _ _ _ _ hfalse hpa]
  · rw [hM]
    simp only []
    rw [updateFirst_length]

/-- Witness for C10 at a concrete input: a one-record store for lecture L1
on day 0, marking a second student. -/
theorem mark_existing_frame_witness :
    ∃ before after,
      [(⟨"L1", 0, ["S0"]⟩ : AttendanceRecord)] = before ++ ⟨"L1", 0, ["S0"]⟩ :: after ∧
      (∀ x ∈ before, attendanceMatch "L1" (startOfDay 0) (endOfDay 0) x = false) ∧
      (markAttendance 0 [⟨"L1", 0, ["S0"]⟩] "L1" "S1" (DateInput.parseable 0)).1
        = before ++ (⟨"L1", 0, ["S0", "S1"]⟩ : AttendanceRecord) :: after ∧
      ((⟨"L1", 0, ["S0", "S1"]⟩ : AttendanceRecord)).lecture
        = ((⟨"L1", 0, ["S0"]⟩ : AttendanceRecord)).lecture ∧
      ((⟨"L1", 0, ["S0", "S1"]⟩ : AttendanceRecord)).date
        = ((⟨"L1", 0, ["S0"]⟩ : AttendanceRecord)).date ∧
      (markAttendance 0 [⟨"L1", 0, ["S0"]⟩] "L1" "S1" (DateInput.parseable 0)).1.length
        = [(⟨"L1", 0, ["S0"]⟩ : AttendanceRecord)].length :=
  mark_existing_frame 0 0 [⟨"L1", 0, ["S0"]⟩] "L1" "S1" ⟨"L1", 0, ["S0"]⟩
    (by decide) (by decide) (by decide) (by decide)

/-! ### The ledger invariant under reachable states -/

/-- A day-anchored record with the key (l, day of dd) satisfies the
findOne filter of the day window of dd. -/
theorem anchored_match_of_key (l : String) (dd : Int) (x : AttendanceRecord)
    (hanch : x.date = startOfDay x.date) (hlec : x.lecture = l)
    (hday : startOfDay x.date = startOfDay dd) :
    attendanceMatch l (startOfDay dd) (endOfDay dd) x = true := by
  have hx : x.date = startOfDay dd := by rw [hanch, hday]
  simp only [attendanceMatch, hlec, hx, endOfDay, beq_self_eq_true, Bool.true_and,
    Bool.and_eq_true, decide_eq_true_eq]
  omega

theorem ledgerInv_nil : LedgerInv [] :=
  ⟨fun r hr => absurd hr (List.not_mem_nil r), List.Pairwise.nil⟩

/-- The first projections of the branch equations of markAttendance. -/
theorem markAttendance_new_fst (now : Int) (att : List AttendanceRecord)
    (l s : String) (d : DateInput) (dd : Int) (hls : ¬(l = "" ∨ s = ""))
    (hd : parseDateInput now d = some dd)
    (hf : att.find? (attendanceMatch l (startOfDay dd) (endOfDay dd)) = none) :
    (markAttendance now att l s d).1 = att ++ [⟨l, startOfDay dd, [s]⟩] := by
  rw [markAttendance_new now att l s d dd hls hd hf]

theorem markAttendance_push_fst (now : Int) (att : List AttendanceRecord)
    (l s : String) (d : DateInput) (dd : Int) (a : AttendanceRecord)
    (hls : ¬(l = "" ∨ s = "")) (hd : parseDateInput now d = some dd)
    (hf : att.find? (attendanceMatch l (startOfDay dd) (endOfDay dd)) = some a)
    (hmem : s ∉ a.studentsPresent) :
    (markAttendance now att l s d).1
      = updateFirst (attendanceMatch l (startOfDay dd) (endOfDay dd))
          (fun _ => { a with studentsPresent := a.studentsPresent ++ [s] }) att := by
  rw [markAttendance_push now att l s d dd a hls hd hf hmem]

/-- One mark preserves the ledger invariant. -/
theorem markAttendance_inv (now : Int) (att : List AttendanceRecord)
    (l s : String) (d : DateInput) (hinv : LedgerInv att) :
    LedgerInv (markAttendance now att l s d).1 := by
  by_cases hls : l = "" ∨ s = ""
  · rw [markAttendance_invalid now att l s d hls]
    exact hinv
  · cases hd : parseDateInput now d with
    | none =>
      rw [markAttendance_castError now att l s d hls hd]
      exact hinv
    | some dd =>
      cases hf : att.find? (attendanceMatch l (startOfDay dd) (endOfDay dd)) with
      | none =>
        rw [markAttendance_new_fst now att l s d dd hls hd hf]
        obtain ⟨hanch, hnodup⟩ := hinv
        constructor
        · intro r hr
          rcases List.mem_append.mp hr with hr | hr
          · exact hanch r hr
          · have hr' : r = ⟨l, startOfDay dd, [s]⟩ := by simpa using hr
            rw [hr']
            exact (startOfDay_idem dd).symm
        · rw [List.map_append]
          simp only [List.map_cons, List.map_nil]
          refine List.Nodup.append hnodup (List.nodup_singleton _) ?_
          intro k hk hk2
          rcases List.mem_map.mp hk with ⟨x, hxmem, hxkey⟩
          simp only [List.mem_singleton] at hk2
          have hk3 : recordKey x = recordKey ⟨l, startOfDay dd, [s]⟩ := hxkey.trans hk2
          simp only [recordKey, Prod.mk.injEq] at hk3
          rw [startOfDay_idem] at hk3
          have hmatch := anchored_match_of_key l dd x (hanch x hxmem) hk3.1 hk3.2
          have hnot := List.find?_eq_none.mp hf x hxmem
          simp [hmatch] at hnot
      | some a =>
        by_cases hmem : s ∈ a.studentsPresent
        · rw [markAttendance_conflict now att l s d dd a hls hd hf hmem]
          exact hinv
        · rw [markAttendance_push_fst now att l s d dd a hls hd hf hmem]
          obtain ⟨hanch, hnodup⟩ := hinv
          have hamem : a ∈ att := List.mem_of_find?_eq_some hf
          constructor
          · intro r hr
            rcases mem_after_updateFirst _ _ _ r hr with hr' | ⟨x, _, _, hrx⟩
            · exact hanch r hr'
            · rw [hrx]
              exact hanch a hamem
          · have hmap := map_after_updateFirst
              (attendanceMatch l (startOfDay dd) (endOfDay dd))
              (fun _ => { a with studentsPresent := a.studentsPresent ++ [s] })
              recordKey att a hf rfl
            rw [hmap]
            exact hnodup

/-- One ledger operation preserves the ledger invariant. -/
theorem ledgerStep_inv (now : Int) (att : List AttendanceRecord) (op : LedgerOp)
    (hinv : LedgerInv att) : LedgerInv (ledgerStep now att op) := by
  cases op with
  | mark l s d => exact markAttendance_inv now att l s d hinv
  | query l d =>
    simp only [ledgerStep]
    rw [queryAttendance_fst]
    exact hinv

theorem foldl_ledgerStep_inv (now : Int) (ops : List LedgerOp) :
    ∀ att, LedgerInv att → LedgerInv (ops.foldl (ledgerStep now) att) := by
  induction ops with
  | nil => exact fun att h => h
  | cons op ops ih => exact fun att h => ih _ (ledgerStep_inv now att op h)

/-- C2: every ledger state reachable from the empty store by mark and
query operations satisfies the invariant (day-anchored dates and at most
one record per (lecture, calendar day) key); a mark against a state that
already holds a record for its key never creates a record (the store
keeps its length, so a record is created only by the first mark for its
key); and a mark never removes a student or touches another record: every
record of the store has a counterpart with the same lecture and the same
date whose present list includes the old one. -/
theorem ledger_reachable_invariants (now : Int) :
    (∀ ops : List LedgerOp, LedgerInv (runLedger now ops)) ∧
    (∀ (att : List AttendanceRecord) (l s : String) (d : DateInput) (dd : Int),
      parseDateInput now d = some dd →
      (att.find? (attendanceMatch l (startOfDay dd) (endOfDay dd))).isSome →
      (markAttendance now att l s d).1.length = att.length) ∧
    (∀ (att : List AttendanceRecord) (l s : String) (d : DateInput)
        (r : AttendanceRecord), r ∈ att →
      ∃ r', r' ∈ (markAttendance now att l s d).1 ∧
        r'.lecture = r.lecture ∧ r'.date = r.date ∧
        r.studentsPresent ⊆ r'.studentsPresent) := by
  refine ⟨?_, ?_, ?_⟩
  · intro ops
    simp only [runLedger]
    exact foldl_ledgerStep_inv now ops [] ledgerInv_nil
  · intro att l s d dd hd hsome
    rcases Option.isSome_iff_exists.mp hsome with ⟨a, hf⟩
    by_cases hls : l = "" ∨ s = ""
    · rw [markAttendance_invalid now att l s d hls]
    · by_cases hmem : s ∈ a.studentsPresent
      · rw [markAttendance_conflict now att l s d dd a hls hd hf hmem]
      · rw [markAttendance_push_fst now att l s d dd a hls hd hf hmem,
          updateFirst_length]
  · intro att l s d r hr
    by_cases hls : l = "" ∨ s = ""
    · refine ⟨r, ?_, rfl, rfl, List.Subset.refl _⟩
      rw [markAttendance_invalid now att l s d hls]
      exact hr
    · cases hd : parseDateInput now d with
      | none =>
        refine ⟨r, ?_, rfl, rfl, List.Subset.refl _⟩
        rw [markAttendance_castError now att l s d hls hd]
        exact hr
      | some dd =>
        cases hf : att.find? (attendanceMatch l (startOfDay dd) (endOfDay dd)) with
        | none =>
          refine ⟨r, ?_, rfl, rfl, List.Subset.refl _⟩
          rw [markAttendance_new_fst now att l s d dd hls hd hf]
          exact List.mem_append_left _ hr
        | some a =>
          by_cases hmem : s ∈ a.studentsPresent
          · refine ⟨r, ?_, rfl, rfl, List.Subset.refl _⟩
            rw [markAttendance_conflict now att l s d dd a hls hd hf hmem]
            exact hr
          · rcases List.find?_eq_some.mp hf with ⟨hpa, l₁, l₂, hatt, hl₁⟩
            have hfalse : ∀ x ∈ l₁,
                attendanceMatch l (startOfDay dd) (endOfDay dd) x = false := by
              intro x hx
              have h' := hl₁ x hx
              cases hpx : attendanceMatch l (startOfDay dd) (endOfDay dd) x
              · rfl
              · rw [hpx] at h'
                simp at h'
            have hupd : (markAttendance now att l s d).1
                = l₁ ++ { a with studentsPresent := a.studentsPresent ++ [s] } :: l₂ := by
              rw [markAttendance_push_fst now att l s d dd a hls hd hf hmem, hatt]
              exact updateFirst_append_cons _ _ _ _ _ hfalse hpa
            rw [hatt] at hr
            rcases List.mem_append.mp hr with hr1 | hr2
            · refine ⟨r, ?_, rfl, rfl, List.Subset.refl _⟩
              rw [hupd]
              exact List.mem_append_left _ hr1
            · rcases List.mem_cons.mp hr2 with hra | hr2
              · subst hra
                refine ⟨{ r with studentsPresent := r.studentsPresent ++ [s] },
                  ?_, rfl, rfl, List.subset_append_left _ _⟩
                rw [hupd]
                exact List.mem_append_right _ (List.mem_cons_self _ _)
              · refine ⟨r, ?_, rfl, rfl, List.Subset.refl _⟩
                rw [hupd]
                exact List.mem_append_right _ (List.mem_cons_of_mem _ hr2)

/-- Witness for C2 at concrete inputs: the invariant after two marks and a
query; no creation on a repeat key; growth of an existing record. -/
theorem ledger_reachable_invariants_witness :
    LedgerInv (runLedger 0 [LedgerOp.mark "L1" "S1" (DateInput.parseable 0),
      LedgerOp.mark "L1" "S2" (DateInput.parseable 0),
      LedgerOp.query "L1" (DateInput.parseable 0)]) ∧
    (markAttendance 0 [⟨"L1", 0, ["S1"]⟩] "L1" "S2" (DateInput.parseable 0)).1.length
      = [(⟨"L1", 0, ["S1"]⟩ : AttendanceRecord)].length ∧
    (∃ r', r' ∈ (markAttendance 0 [⟨"L1", 0, ["S1"]⟩] "L1" "S2"
        (DateInput.parseable 0)).1 ∧
      r'.lecture = (⟨"L1", 0, ["S1"]⟩ : AttendanceRecord).lecture ∧
      r'.date = (⟨"L1", 0, ["S1"]⟩ : AttendanceRecord).date ∧
      (⟨"L1", 0, ["S1"]⟩ : AttendanceRecord).studentsPresent ⊆ r'.studentsPresent) :=
  ⟨(ledger_reachable_invariants 0).1 _,
   (ledger_reachable_invariants 0).2.1 [⟨"L1", 0, ["S1"]⟩] "L1" "S2"
     (DateInput.parseable 0) 0 rfl (by decide),
   (ledger_reachable_invariants 0).2.2 [⟨"L1", 0, ["S1"]⟩] "L1" "S2"
     (DateInput.parseable 0) ⟨"L1", 0, ["S1"]⟩ (by decide)⟩

/-- The identity store with the seeded demo credential, used by the C8
witness. -/
def akashState : ServerState :=
  { emptyState with users := [⟨"Akash", bcryptHash "12345"⟩] }

/-- Witness for C8 at concrete inputs: unknown identity, wrong current
password, and a successful change. -/
theorem change_password_cases_witness :
    changePasswordHandler "12345" "pw2" ⟨"Bob", 0⟩ akashState
      = (akashState, Response.error 404 "User not found") ∧
    changePasswordHandler "wrong" "pw2" ⟨"Akash", 0⟩ akashState
      = (akashState, Response.error 400 "Current password incorrect") ∧
    (changePasswordHandler "12345" "pw2" ⟨"Akash", 0⟩ akashState).2
      = Response.ok "Password changed successfully" ∧
    (changePasswordHandler "12345" "pw2" ⟨"Akash", 0⟩ akashState).1.users.find?
        (fun u => u.username == ("Akash" : String))
      = some ⟨"Akash", bcryptHash "pw2"⟩ := by
  have hsucc := (change_password_cases "12345" "pw2" ⟨"Akash", 0⟩ akashState).2.2
    ⟨"Akash", bcryptHash "12345"⟩ (by decide) (by decide)
  exact ⟨(change_password_cases "12345" "pw2" ⟨"Bob", 0⟩ akashState).1 (by decide),
    (change_password_cases "wrong" "pw2" ⟨"Akash", 0⟩ akashState).2.1
      ⟨"Akash", bcryptHash "12345"⟩ (by decide) (by decide),
    hsucc.1, hsucc.2⟩

end Server
